import Mathlib

/-!
# Verification of the PAN-OS multi-firewall monitor collection pipeline

Shallow embedding, in Lean 4, of the numeric and algorithmic core of the
PALO-PANOS-MONITOR repository: the interface rate calculator
(`src/interface_monitor.py`), the aggregation helpers of `src/collectors.py`
and `src/panos-monitor.py`, the fan-in metrics queue of
`src/collectors.py`, and the per-cycle metric merging of
`EnhancedFirewallCollector.collect_metrics`.

Python floats are modelled by `ℚ` (the float literals involved — `0.95`,
counter values, timestamps — are exactly representable or the claims are
robust to the rounding, as noted at each use); Python ints by `ℤ`;
timestamps by rational seconds.
-/

set_option maxRecDepth 8000

namespace InterfaceMonitor

/-- `InterfaceSample` dataclass from `src/interface_monitor.py`.
Timestamps are rational seconds (Python `datetime`; only differences of
timestamps, via `total_seconds()`, are used by the code modelled here). -/
structure InterfaceSample where
  timestamp : ℚ
  interface_name : String
  rx_bytes : ℤ
  tx_bytes : ℤ
  rx_packets : ℤ
  tx_packets : ℤ
  rx_errors : ℤ := 0
  tx_errors : ℤ := 0
  success : Bool := true
  error : Option String := none
  deriving DecidableEq, Repr

/-- `InterfaceMetrics` dataclass from `src/interface_monitor.py`. -/
structure InterfaceMetrics where
  interface_name : String
  interval_seconds : ℚ
  rx_bps : ℚ
  tx_bps : ℚ
  rx_mbps : ℚ
  tx_mbps : ℚ
  rx_pps : ℚ
  tx_pps : ℚ
  utilization_percent : ℚ := 0
  total_mbps : ℚ := 0
  deriving DecidableEq, Repr

/-- The per-counter delta step of `calculate_interface_metrics`
(`src/interface_monitor.py`, lines 201-214): `delta = curr - prev`, and if
the delta is negative, `delta += 2**32` ("Handle counter wraps (assume
32-bit counters)"). The modulus `2^32` is a hard-coded literal. -/
def wrap32 (curr prev : ℤ) : ℤ :=
  let delta := curr - prev
  if delta < 0 then delta + 2 ^ 32 else delta

/-- `calculate_interface_metrics` from `src/interface_monitor.py`
(lines 189-236): `None` when the interface names differ or the elapsed
interval is not positive; otherwise rates from the wrap-corrected deltas. -/
def calculate_interface_metrics (prev_sample curr_sample : InterfaceSample) :
    Option InterfaceMetrics :=
  if prev_sample.interface_name ≠ curr_sample.interface_name then none
  else
    let interval : ℚ := curr_sample.timestamp - prev_sample.timestamp
    if interval ≤ 0 then none
    else
      let rx_delta := wrap32 curr_sample.rx_bytes prev_sample.rx_bytes
      let tx_delta := wrap32 curr_sample.tx_bytes prev_sample.tx_bytes
      let rx_pkt_delta := wrap32 curr_sample.rx_packets prev_sample.rx_packets
      let tx_pkt_delta := wrap32 curr_sample.tx_packets prev_sample.tx_packets
      let rx_bps : ℚ := (rx_delta * 8 : ℤ) / interval
      let tx_bps : ℚ := (tx_delta * 8 : ℤ) / interval
      let rx_mbps : ℚ := rx_bps / (1000 * 1000)
      let tx_mbps : ℚ := tx_bps / (1000 * 1000)
      let rx_pps : ℚ := (rx_pkt_delta : ℚ) / interval
      let tx_pps : ℚ := (tx_pkt_delta : ℚ) / interval
      let total_mbps : ℚ := rx_mbps + tx_mbps
      some { interface_name := curr_sample.interface_name
             interval_seconds := interval
             rx_bps := rx_bps
             tx_bps := tx_bps
             rx_mbps := rx_mbps
             tx_mbps := tx_mbps
             rx_pps := rx_pps
             tx_pps := tx_pps
             total_mbps := total_mbps }

end InterfaceMonitor

namespace Collectors

/-- Python `max(values)` over a non-empty list (the guard in `_aggregate`
ensures non-emptiness; `0` stands for the unreached empty case). -/
def pyMax : List ℚ → ℚ
  | [] => 0
  | x :: xs => xs.foldl max x

/-- Python `min(values)` over a non-empty list. -/
def pyMin : List ℚ → ℚ
  | [] => 0
  | x :: xs => xs.foldl min x

/-- Python `int(x)`: truncation toward zero. -/
def pyInt (q : ℚ) : ℤ := if 0 ≤ q then ⌊q⌋ else ⌈q⌉

/-- Python `str.lower()`, character-wise (ASCII suffices for the mode
strings compared against here). -/
def pyLower (s : String) : String := String.mk (s.data.map Char.toLower)

/-- `calculate_percentile` from `src/collectors.py` (lines 235-253):
sorted input, `index = (len-1)*percentile`, `lower_index = int(index)`,
`upper_index = min(lower_index+1, len-1)`, linear interpolation with
`weight = index - lower_index`. Python's stable `sorted` is modelled by
`List.insertionSort` (extensionally equal on a totally ordered type).
List access is total via `getD` with default `0`; the theorems below only
use it at indices that are in bounds, where Python would not raise. -/
def calculate_percentile (values : List ℚ) (percentile : ℚ) : ℚ :=
  if values = [] then 0
  else
    let sorted_values := List.insertionSort (· ≤ ·) values
    if sorted_values.length = 1 then sorted_values.getD 0 0
    else
      let index : ℚ := ((sorted_values.length : ℚ) - 1) * percentile
      let lower_index : ℤ := pyInt index
      let upper_index : ℤ := min (lower_index + 1) ((sorted_values.length : ℤ) - 1)
      if lower_index = upper_index then sorted_values.getD lower_index.toNat 0
      else
        let weight : ℚ := index - (lower_index : ℚ)
        sorted_values.getD lower_index.toNat 0 * (1 - weight) +
          sorted_values.getD upper_index.toNat 0 * weight

/-- `_aggregate` from `src/collectors.py` (lines 222-233): `0.0` on the
empty list; `(mode or "mean").lower()` selects `max`/`min`/`p95` (with
`percentile = 0.95`, exactly `19/20`) or the mean. -/
def aggregate (values : List ℚ) (mode : String) : ℚ :=
  if values = [] then 0
  else
    let m := pyLower (if mode = "" then "mean" else mode)
    if m = "max" then pyMax values
    else if m = "min" then pyMin values
    else if m = "p95" then calculate_percentile values (95 / 100)
    else values.sum / values.length

end Collectors

namespace PanosMonitor

/-- `_aggregate` from `src/panos-monitor.py` (lines 134-145): `0.0` on the
empty list; for `p95`, the nearest-rank order statistic
`s[max(0, min(len(s)-1, ceil(0.95*len(s))-1))]` of the sorted list; `max`
and mean otherwise. (Binary64 `0.95` differs from `19/20` by `< 2^-52`,
which moves no `ceil` value in this function for the lengths the p95
theorem below is stated at, `1 ≤ n ≤ 19`, where `0.95*n` is at distance
`≥ 1/20` from the integers it is compared against.) -/
def aggregate (values : List ℚ) (mode : String) : ℚ :=
  if values = [] then 0
  else
    let m := Collectors.pyLower (if mode = "" then "mean" else mode)
    if m = "max" then Collectors.pyMax values
    else if m = "p95" then
      let s := List.insertionSort (· ≤ ·) values
      let idx : ℤ := max 0 (min ((s.length : ℤ) - 1) (⌈(95 / 100 : ℚ) * (s.length : ℚ)⌉ - 1))
      s.getD idx.toNat 0
    else values.sum / values.length

end PanosMonitor

namespace Collectors

/-- The `maxsize` of the fan-in metrics queue created at
`src/collectors.py` line 913: `self.metrics_queue = Queue()`.
Python's `queue.Queue()` default is `maxsize=0`. -/
def metrics_queue_maxsize : ℤ := 0

/-- Python `queue.Queue` admission rule: a `put` succeeds (immediately)
iff `maxsize <= 0` or the current size is below `maxsize`; with
`maxsize <= 0` the queue is unbounded and `put` never blocks or fails. -/
def queue_accepts (maxsize : ℤ) (size : ℕ) : Bool :=
  decide (maxsize ≤ 0) || decide ((size : ℤ) < maxsize)

/-- One enqueue attempt against a `queue.Queue` with the given `maxsize`,
as issued by `MultiFirewallCollector._collection_worker`
(`src/collectors.py` lines 991-1016): `self.metrics_queue.put(result)`
with no timeout; the worker keeps no overflow counter, so a rejected item
would simply be absent. -/
def queue_put {α : Type} (maxsize : ℤ) (q : List α) (x : α) : List α :=
  if queue_accepts maxsize q.length then q ++ [x] else q

/-- A sequence of enqueue attempts (the fan-in from the collection
workers), oldest first, with no intervening dequeue (non-draining
consumer). -/
def queue_put_all {α : Type} (maxsize : ℤ) (q : List α) (xs : List α) : List α :=
  xs.foldl (queue_put maxsize) q

/-- Values stored in the `metrics` dict built by
`EnhancedFirewallCollector.collect_metrics`: parsed numeric fields plus
the string-valued `timestamp` and `firewall_name` entries. -/
inductive MetricValue : Type
  | num (q : ℚ)
  | str (s : String)
  deriving DecidableEq, Repr

/-- Python `dict` as an association list: assigning one key
(`dict.update` on a single entry) overwrites the value of an existing key
in place and appends a new key at the end, preserving insertion order. -/
def dict_update : List (String × MetricValue) → String × MetricValue →
    List (String × MetricValue)
  | [], kv => [kv]
  | (k', v') :: rest, kv =>
    if k' = kv.1 then kv :: rest else (k', v') :: dict_update rest kv

/-- `metrics.update(fields)`: fold `dict_update` over the new pairs. -/
def dict_update_all (d : List (String × MetricValue))
    (fs : List (String × MetricValue)) : List (String × MetricValue) :=
  fs.foldl dict_update d

/-- `CollectionResult` dataclass from `src/collectors.py` (lines 34-43),
restricted to the fields driven by the code modelled here (the
`interface_metrics`/`session_stats` dicts and the timestamp are carried
opaquely by the same cycle and do not interact with the metric-group
merging). -/
structure CollectionResult where
  success : Bool
  firewall_name : String
  metrics : List (String × MetricValue)
  error : Option String := none
  deriving DecidableEq, Repr

/-- The metric-group outcome of one poll cycle: `none` when the group's
fetch/parse raised or was caught by the surrounding `try/except` (or, for
the management-CPU group, returned a falsy empty dict), `some fs` when it
produced the numeric fields `fs`. -/
def groupFields := Option (List (String × ℚ))

/-- `EnhancedFirewallCollector.collect_metrics` from `src/collectors.py`
(lines 792-885), with the outcome of each metric group abstracted as an
`Option` parameter (the network and parsing happen outside the merging
logic): if not authenticated and re-authentication fails, a failed
`CollectionResult` is returned; otherwise each group is merged into the
`metrics` dict under its own `try/except` — a `none` group contributes
nothing and aborts nothing — then `timestamp` and `firewall_name` are
written and a successful result is always returned. -/
def collect_metrics (name : String) (authenticated auth_ok : Bool)
    (mgmt_group rm_group : Option (List (String × ℚ))) (timestamp : String) :
    CollectionResult :=
  if ¬authenticated ∧ ¬auth_ok then
    { success := false, firewall_name := name, metrics := [],
      error := some "Authentication failed" }
  else
    let metrics : List (String × MetricValue) := []
    let metrics := match mgmt_group with
      | some fs => if fs = [] then metrics
          else dict_update_all metrics (fs.map fun p => (p.1, MetricValue.num p.2))
      | none => metrics
    let metrics := match rm_group with
      | some fs => dict_update_all metrics (fs.map fun p => (p.1, MetricValue.num p.2))
      | none => metrics
    let metrics := dict_update metrics ("timestamp", MetricValue.str timestamp)
    let metrics := dict_update metrics ("firewall_name", MetricValue.str name)
    { success := true, firewall_name := name, metrics := metrics }

end Collectors

namespace InterfaceMonitor

/-- The concrete example of spec property **E2E C**: previous snapshot with
`rx_bytes = 1000` at `t = 0 s`. -/
def e2e_prev : InterfaceSample :=
  { timestamp := 0, interface_name := "ethernet1/1",
    rx_bytes := 1000, tx_bytes := 0, rx_packets := 0, tx_packets := 0 }

/-- **E2E C** current snapshot: `rx_bytes = 2000` at `t = 1 s`. -/
def e2e_curr : InterfaceSample :=
  { timestamp := 1, interface_name := "ethernet1/1",
    rx_bytes := 2000, tx_bytes := 0, rx_packets := 0, tx_packets := 0 }

/-- The metrics the code produces on the **E2E C** snapshots. -/
def e2e_metrics : InterfaceMetrics :=
  { interface_name := "ethernet1/1", interval_seconds := 1,
    rx_bps := 8000, tx_bps := 0, rx_mbps := 8 / 1000, tx_mbps := 0,
    rx_pps := 0, tx_pps := 0, total_mbps := 8 / 1000 }

/-- A previous snapshot just before a 64-bit counter wrap:
`rx_bytes = 2^64 - 6`. -/
def wrap64_prev : InterfaceSample :=
  { timestamp := 0, interface_name := "ethernet1/1",
    rx_bytes := 2 ^ 64 - 6, tx_bytes := 0, rx_packets := 0, tx_packets := 0 }

/-- The snapshot after that 64-bit wrap: `rx_bytes = 5` one second later
(true delta `11` under a `2^64` modulus). -/
def wrap64_curr : InterfaceSample :=
  { timestamp := 1, interface_name := "ethernet1/1",
    rx_bytes := 5, tx_bytes := 0, rx_packets := 0, tx_packets := 0 }

end InterfaceMonitor

namespace InterfaceMonitor

/-- Unfolding lemma: on samples with matching names and a positive elapsed
interval, `calculate_interface_metrics` returns exactly the record built
from the wrap-corrected deltas. -/
theorem calculate_interface_metrics_eq_some
    (prev curr : InterfaceSample)
    (hn : prev.interface_name = curr.interface_name)
    (ht : 0 < curr.timestamp - prev.timestamp) :
    calculate_interface_metrics prev curr = some
      { interface_name := curr.interface_name
        interval_seconds := curr.timestamp - prev.timestamp
        rx_bps := ((wrap32 curr.rx_bytes prev.rx_bytes * 8 : ℤ) : ℚ) /
          (curr.timestamp - prev.timestamp)
        tx_bps := ((wrap32 curr.tx_bytes prev.tx_bytes * 8 : ℤ) : ℚ) /
          (curr.timestamp - prev.timestamp)
        rx_mbps := ((wrap32 curr.rx_bytes prev.rx_bytes * 8 : ℤ) : ℚ) /
          (curr.timestamp - prev.timestamp) / (1000 * 1000)
        tx_mbps := ((wrap32 curr.tx_bytes prev.tx_bytes * 8 : ℤ) : ℚ) /
          (curr.timestamp - prev.timestamp) / (1000 * 1000)
        rx_pps := ((wrap32 curr.rx_packets prev.rx_packets : ℤ) : ℚ) /
          (curr.timestamp - prev.timestamp)
        tx_pps := ((wrap32 curr.tx_packets prev.tx_packets : ℤ) : ℚ) /
          (curr.timestamp - prev.timestamp)
        total_mbps := ((wrap32 curr.rx_bytes prev.rx_bytes * 8 : ℤ) : ℚ) /
            (curr.timestamp - prev.timestamp) / (1000 * 1000) +
          ((wrap32 curr.tx_bytes prev.tx_bytes * 8 : ℤ) : ℚ) /
            (curr.timestamp - prev.timestamp) / (1000 * 1000) } := by
  simp only [calculate_interface_metrics]
  rw [if_neg (by simp [hn]), if_neg (not_le.mpr ht)]

/-- Evaluation of the code on the **E2E C** snapshots. -/
theorem calculate_e2e :
    calculate_interface_metrics e2e_prev e2e_curr = some e2e_metrics := by
  rw [calculate_interface_metrics_eq_some e2e_prev e2e_curr rfl
    (by norm_num [e2e_prev, e2e_curr])]
  simp only [e2e_prev, e2e_curr, e2e_metrics, wrap32, Option.some.injEq,
    InterfaceMetrics.mk.injEq]
  norm_num

end InterfaceMonitor

/-- **C4**: for 32-bit counter values (both below `2^32`), each per-counter
delta is `curr - prev`, with the modulus `2^32` added exactly when that
difference is negative, and the resulting delta is never negative; in
particular `prev = 4294967290`, `curr = 5` gives delta
`5 + 2^32 - 4294967290 = 11`. -/
theorem wrap32_nonneg_of_32bit (curr prev : ℤ)
    (hc0 : 0 ≤ curr) (hc : curr < 2 ^ 32) (hp0 : 0 ≤ prev) (hp : prev < 2 ^ 32) :
    0 ≤ InterfaceMonitor.wrap32 curr prev ∧
    InterfaceMonitor.wrap32 curr prev =
      (if prev ≤ curr then curr - prev else curr - prev + 2 ^ 32) ∧
    InterfaceMonitor.wrap32 5 4294967290 = 11 := by
  refine ⟨?_, ?_, by decide⟩ <;>
    · simp only [InterfaceMonitor.wrap32]
      split_ifs <;> omega

/-- Witness for **C4** at the spec's own numbers: `prev = 4294967290`,
`curr = 5` are 32-bit values, and the wrapped delta is `11 ≥ 0`. -/
theorem wrap32_nonneg_of_32bit_witness :
    0 ≤ InterfaceMonitor.wrap32 5 4294967290 ∧
    InterfaceMonitor.wrap32 5 4294967290 =
      (if (4294967290 : ℤ) ≤ 5 then 5 - 4294967290 else 5 - 4294967290 + 2 ^ 32) ∧
    InterfaceMonitor.wrap32 5 4294967290 = 11 :=
  wrap32_nonneg_of_32bit 5 4294967290 (by decide) (by decide) (by decide) (by decide)

/-- **C5** (counterexample): the wrap modulus is not configurable — on a
64-bit counter wrap (`prev = 2^64 - 6`, `curr = 5`, one second apart) the
code still adds only `2^32`, so the resulting `rx_bps` is the hugely
negative `(11 - 2^64 + 2^32) * 8`, not the `11 * 8 = 88` that a `2^64`
modulus would give. -/
theorem wrap64_not_configurable_counterexample :
    (InterfaceMonitor.calculate_interface_metrics
        InterfaceMonitor.wrap64_prev InterfaceMonitor.wrap64_curr).map
      InterfaceMonitor.InterfaceMetrics.rx_bps =
      some (((11 - 2 ^ 64 + 2 ^ 32) * 8 : ℤ) : ℚ) ∧
    (((11 - 2 ^ 64 + 2 ^ 32) * 8 : ℤ) : ℚ) < 0 ∧
    (((11 - 2 ^ 64 + 2 ^ 32) * 8 : ℤ) : ℚ) ≠ 11 * 8 := by
  refine ⟨?_, ?_, ?_⟩
  · rw [InterfaceMonitor.calculate_interface_metrics_eq_some
      InterfaceMonitor.wrap64_prev InterfaceMonitor.wrap64_curr rfl (by norm_num
        [InterfaceMonitor.wrap64_prev, InterfaceMonitor.wrap64_curr])]
    simp only [Option.map_some, Option.some.injEq,
      InterfaceMonitor.wrap64_prev, InterfaceMonitor.wrap64_curr,
      InterfaceMonitor.wrap32]
    norm_num
  · have : ((11 - 2 ^ 64 + 2 ^ 32) * 8 : ℤ) < 0 := by norm_num
    exact_mod_cast this
  · have : ((11 - 2 ^ 64 + 2 ^ 32) * 8 : ℤ) ≠ 11 * 8 := by norm_num
    exact_mod_cast this

/-- **C5** (amended): the counter modulus is hard-coded — every negative
delta is corrected by adding `2^32`, whatever the counter width. -/
theorem wrap32_always_adds_two_pow_32 (curr prev : ℤ)
    (h : curr - prev < 0) :
    InterfaceMonitor.wrap32 curr prev = curr - prev + 2 ^ 32 := by
  simp only [InterfaceMonitor.wrap32]
  rw [if_pos h]

/-- Witness for the amended **C5** at `curr = 5`, `prev = 2^64 - 6`. -/
theorem wrap32_always_adds_two_pow_32_witness :
    InterfaceMonitor.wrap32 5 (2 ^ 64 - 6) = 5 - (2 ^ 64 - 6) + 2 ^ 32 :=
  wrap32_always_adds_two_pow_32 5 (2 ^ 64 - 6) (by decide)

/-- **C6**: when `curr.timestamp ≤ prev.timestamp` the rate computation
returns `none`, and every `InterfaceMetrics` it does return has a strictly
positive elapsed interval — no zero or negative denominator is ever used. -/
theorem calculate_interface_metrics_time_guard :
    (∀ prev curr : InterfaceMonitor.InterfaceSample,
      curr.timestamp ≤ prev.timestamp →
      InterfaceMonitor.calculate_interface_metrics prev curr = none) ∧
    (∀ (prev curr : InterfaceMonitor.InterfaceSample)
        (m : InterfaceMonitor.InterfaceMetrics),
      InterfaceMonitor.calculate_interface_metrics prev curr = some m →
      0 < m.interval_seconds) := by
  constructor
  · intro prev curr h
    simp only [InterfaceMonitor.calculate_interface_metrics]
    split
    · rfl
    · rw [if_pos (by linarith : curr.timestamp - prev.timestamp ≤ 0)]
  · intro prev curr m hm
    simp only [InterfaceMonitor.calculate_interface_metrics] at hm
    split at hm
    · cases hm
    · split at hm
      · cases hm
      · cases hm
        simpa using by linarith [not_le.mp (by assumption :
          ¬ curr.timestamp - prev.timestamp ≤ 0)]

/-- Witness for **C6**: equal timestamps yield `none`, and the **E2E C**
pair yields a metrics record with interval `1 > 0`. -/
theorem calculate_interface_metrics_time_guard_witness :
    InterfaceMonitor.calculate_interface_metrics
      InterfaceMonitor.e2e_prev InterfaceMonitor.e2e_prev = none ∧
    0 < InterfaceMonitor.e2e_metrics.interval_seconds :=
  ⟨calculate_interface_metrics_time_guard.1 _ _ (le_refl _),
   calculate_interface_metrics_time_guard.2
     InterfaceMonitor.e2e_prev InterfaceMonitor.e2e_curr
     InterfaceMonitor.e2e_metrics InterfaceMonitor.calculate_e2e⟩

/-- **C7**: every returned rate satisfies `rx_bps = rx_delta * 8 /
interval` (tx symmetric), `pps = packet_delta / interval`, and
`mbps = bps / 10^6`, with the deltas wrap-corrected by `wrap32`. -/
theorem calculate_interface_metrics_rate_formulas
    (prev curr : InterfaceMonitor.InterfaceSample)
    (m : InterfaceMonitor.InterfaceMetrics)
    (hm : InterfaceMonitor.calculate_interface_metrics prev curr = some m) :
    m.rx_bps = ((InterfaceMonitor.wrap32 curr.rx_bytes prev.rx_bytes * 8 : ℤ) : ℚ) /
        (curr.timestamp - prev.timestamp) ∧
    m.tx_bps = ((InterfaceMonitor.wrap32 curr.tx_bytes prev.tx_bytes * 8 : ℤ) : ℚ) /
        (curr.timestamp - prev.timestamp) ∧
    m.rx_pps = ((InterfaceMonitor.wrap32 curr.rx_packets prev.rx_packets : ℤ) : ℚ) /
        (curr.timestamp - prev.timestamp) ∧
    m.tx_pps = ((InterfaceMonitor.wrap32 curr.tx_packets prev.tx_packets : ℤ) : ℚ) /
        (curr.timestamp - prev.timestamp) ∧
    m.rx_mbps = m.rx_bps / 1000000 ∧
    m.tx_mbps = m.tx_bps / 1000000 := by
  simp only [InterfaceMonitor.calculate_interface_metrics] at hm
  split at hm
  · cases hm
  · split at hm
    · cases hm
    · cases hm
      refine ⟨rfl, rfl, rfl, rfl, ?_, ?_⟩ <;> · show _ / (1000 * 1000) = _ / 1000000; norm_num

/-- Witness for **C7** at the spec's **E2E C** input: `rx = 1000 → 2000`
over one second gives `rx_bps = 8000` and `rx_mbps = 0.008`. -/
theorem calculate_interface_metrics_rate_formulas_witness :
    InterfaceMonitor.calculate_interface_metrics
        InterfaceMonitor.e2e_prev InterfaceMonitor.e2e_curr =
      some InterfaceMonitor.e2e_metrics ∧
    InterfaceMonitor.e2e_metrics.rx_bps = 8000 ∧
    InterfaceMonitor.e2e_metrics.rx_mbps = (0.008 : ℚ) ∧
    (InterfaceMonitor.e2e_metrics.rx_bps =
        ((InterfaceMonitor.wrap32 InterfaceMonitor.e2e_curr.rx_bytes
            InterfaceMonitor.e2e_prev.rx_bytes * 8 : ℤ) : ℚ) /
          (InterfaceMonitor.e2e_curr.timestamp - InterfaceMonitor.e2e_prev.timestamp) ∧
      InterfaceMonitor.e2e_metrics.tx_bps =
        ((InterfaceMonitor.wrap32 InterfaceMonitor.e2e_curr.tx_bytes
            InterfaceMonitor.e2e_prev.tx_bytes * 8 : ℤ) : ℚ) /
          (InterfaceMonitor.e2e_curr.timestamp - InterfaceMonitor.e2e_prev.timestamp) ∧
      InterfaceMonitor.e2e_metrics.rx_pps =
        ((InterfaceMonitor.wrap32 InterfaceMonitor.e2e_curr.rx_packets
            InterfaceMonitor.e2e_prev.rx_packets : ℤ) : ℚ) /
          (InterfaceMonitor.e2e_curr.timestamp - InterfaceMonitor.e2e_prev.timestamp) ∧
      InterfaceMonitor.e2e_metrics.tx_pps =
        ((InterfaceMonitor.wrap32 InterfaceMonitor.e2e_curr.tx_packets
            InterfaceMonitor.e2e_prev.tx_packets : ℤ) : ℚ) /
          (InterfaceMonitor.e2e_curr.timestamp - InterfaceMonitor.e2e_prev.timestamp) ∧
      InterfaceMonitor.e2e_metrics.rx_mbps = InterfaceMonitor.e2e_metrics.rx_bps / 1000000 ∧
      InterfaceMonitor.e2e_metrics.tx_mbps = InterfaceMonitor.e2e_metrics.tx_bps / 1000000) :=
  ⟨InterfaceMonitor.calculate_e2e, by decide,
   by with_unfolding_all decide,
   calculate_interface_metrics_rate_formulas _ _ _ InterfaceMonitor.calculate_e2e⟩

/-- **C10**: samples with different interface names are rejected — the
rate computation returns `none` before looking at timestamps or
counters. -/
theorem calculate_interface_metrics_name_guard
    (prev curr : InterfaceMonitor.InterfaceSample)
    (h : prev.interface_name ≠ curr.interface_name) :
    InterfaceMonitor.calculate_interface_metrics prev curr = none := by
  simp only [InterfaceMonitor.calculate_interface_metrics]
  rw [if_pos h]

/-- Witness for **C10**: an `ethernet1/1` sample paired with an
`ethernet1/2` sample produces no rate. -/
theorem calculate_interface_metrics_name_guard_witness :
    InterfaceMonitor.calculate_interface_metrics
      InterfaceMonitor.e2e_prev
      { InterfaceMonitor.e2e_curr with interface_name := "ethernet1/2" } = none :=
  calculate_interface_metrics_name_guard _ _ (by decide)

/-- **C8**: aggregating an empty value set never errors and yields `0.0`:
`_aggregate([])` is `0.0` under every mode (both the `collectors.py` and
the `panos-monitor.py` version) and `calculate_percentile([])` is `0.0`
for every percentile. -/
theorem aggregate_empty_eq_zero :
    ∀ (mode : String) (p : ℚ),
      Collectors.aggregate [] mode = 0 ∧
      Collectors.calculate_percentile [] p = 0 ∧
      PanosMonitor.aggregate [] mode = 0 :=
  fun _ _ => ⟨rfl, rfl, rfl⟩

namespace Collectors

/-- With an unbounded queue (`maxsize ≤ 0`, the `Queue()` default the
code uses), every enqueue is accepted, so the queue grows by exactly the
number of attempts. -/
theorem queue_put_all_length_of_maxsize_nonpos {α : Type} (maxsize : ℤ)
    (hms : maxsize ≤ 0) (xs q : List α) :
    (queue_put_all maxsize q xs).length = q.length + xs.length := by
  induction xs generalizing q with
  | nil => simp [queue_put_all]
  | cons x xs ih =>
    have hacc : queue_accepts maxsize q.length = true := by
      simp [queue_accepts, hms]
    show (queue_put_all maxsize (queue_put maxsize q x) xs).length = _
    rw [ih (queue_put maxsize q x)]
    simp [queue_put, hacc]
    omega

/-- A stand-in collection result item travelling through the queue. -/
def dummy_result : CollectionResult :=
  { success := false, firewall_name := "fw", metrics := [] }

end Collectors

/-- **C1** (code evaluated at the failing input): the metrics queue is
created with Python's default `maxsize = 0`, i.e. unbounded — after 1001
enqueues with a non-draining consumer the queue holds 1001 items,
exceeding the claimed ~1000 capacity; every enqueue is accepted
immediately (the worker's `put` has no timeout), so no overflow counter
could ever differ from zero (`_collection_worker` keeps none). -/
theorem metrics_queue_is_unbounded :
    Collectors.metrics_queue_maxsize = 0 ∧
    (∀ {α : Type} (q xs : List α),
      (Collectors.queue_put_all Collectors.metrics_queue_maxsize q xs).length =
        q.length + xs.length) ∧
    1000 <
      (Collectors.queue_put_all Collectors.metrics_queue_maxsize []
        (List.replicate 1001 Collectors.dummy_result)).length := by
  have h : ∀ {α : Type} (q xs : List α),
      (Collectors.queue_put_all Collectors.metrics_queue_maxsize q xs).length =
        q.length + xs.length := fun q xs =>
    Collectors.queue_put_all_length_of_maxsize_nonpos _ le_rfl xs q
  refine ⟨rfl, h, ?_⟩
  rw [h]
  simp

namespace Collectors

theorem le_foldl_max (xs : List ℚ) (a : ℚ) : a ≤ xs.foldl max a := by
  induction xs generalizing a with
  | nil => exact le_refl a
  | cons x xs ih => exact le_trans (le_max_left a x) (ih (max a x))

theorem mem_le_foldl_max (xs : List ℚ) (a x : ℚ) (hx : x ∈ xs) :
    x ≤ xs.foldl max a := by
  induction xs generalizing a with
  | nil => cases hx
  | cons y ys ih =>
    rcases List.mem_cons.mp hx with rfl | h
    · exact le_trans (le_max_right a x) (le_foldl_max ys (max a x))
    · exact ih (max a y) h

theorem foldl_max_mem (xs : List ℚ) (a : ℚ) : xs.foldl max a ∈ a :: xs := by
  induction xs generalizing a with
  | nil => simp
  | cons x xs ih =>
    show xs.foldl max (max a x) ∈ a :: x :: xs
    rcases List.mem_cons.mp (ih (max a x)) with h | h
    · rcases max_choice a x with h1 | h1
      · rw [h, h1]; exact List.mem_cons_self a (x :: xs)
      · rw [h, h1]; exact List.mem_cons_of_mem a (List.mem_cons_self x xs)
    · exact List.mem_cons_of_mem a (List.mem_cons_of_mem x h)

/-- Python `max` of a non-empty list is an element of the list. -/
theorem pyMax_mem (l : List ℚ) (h : l ≠ []) : pyMax l ∈ l := by
  cases l with
  | nil => exact absurd rfl h
  | cons x xs => exact foldl_max_mem xs x

/-- Every element of a list is at most its Python `max`. -/
theorem le_pyMax (l : List ℚ) (x : ℚ) (hx : x ∈ l) : x ≤ pyMax l := by
  cases l with
  | nil => cases hx
  | cons y ys =>
    rcases List.mem_cons.mp hx with rfl | h
    · exact le_foldl_max ys x
    · exact mem_le_foldl_max ys y x h

/-- In a sorted list, every element is at most the last one. -/
theorem sorted_le_getD_last :
    ∀ l : List ℚ, l.Sorted (· ≤ ·) → ∀ x ∈ l, x ≤ l.getD (l.length - 1) 0
  | [], _, x, hx => absurd hx (List.not_mem_nil x)
  | [a], _, x, hx => by
    rcases List.mem_singleton.mp hx with rfl
    exact le_of_eq rfl
  | a :: b :: u, hs, x, hx => by
    rw [List.sorted_cons] at hs
    have hstep : (a :: b :: u).getD ((a :: b :: u).length - 1) 0 =
        (b :: u).getD ((b :: u).length - 1) 0 := by
      simp only [List.length_cons, Nat.add_sub_cancel, List.getD_cons_succ]
    rw [hstep]
    rcases List.mem_cons.mp hx with rfl | h
    · exact le_trans (hs.1 b (List.mem_cons_self b u))
        (sorted_le_getD_last (b :: u) hs.2 b (List.mem_cons_self b u))
    · exact sorted_le_getD_last (b :: u) hs.2 x h

/-- The last element of the sorted copy of a non-empty list is its
Python `max`. -/
theorem sorted_getD_last_eq_pyMax (values : List ℚ) (h1 : values ≠ []) :
    (List.insertionSort (· ≤ ·) values).getD
      ((List.insertionSort (· ≤ ·) values).length - 1) 0 = pyMax values := by
  have hperm := List.perm_insertionSort (· ≤ ·) values
  have hsorted := List.sorted_insertionSort (· ≤ ·) values
  have hlen : 0 < (List.insertionSort (· ≤ ·) values).length := by
    rw [hperm.length_eq]
    exact List.length_pos.mpr h1
  apply le_antisymm
  · have hbound : (List.insertionSort (· ≤ ·) values).length - 1 <
        (List.insertionSort (· ≤ ·) values).length := by omega
    have hmem : (List.insertionSort (· ≤ ·) values).getD
        ((List.insertionSort (· ≤ ·) values).length - 1) 0 ∈
        List.insertionSort (· ≤ ·) values := by
      rw [List.getD_eq_getElem _ 0 hbound]
      exact List.getElem_mem hbound
    exact le_pyMax values _ (hperm.mem_iff.mp hmem)
  · exact sorted_le_getD_last _ hsorted _ (hperm.mem_iff.mpr (pyMax_mem values h1))

end Collectors

/-- **C2** (amended): the nearest-rank p95 of `src/panos-monitor.py`'s
`_aggregate` equals the maximum for every non-empty list of fewer than 20
elements (the `collectors.py` interpolating p95 does not — see the
counterexample). -/
theorem pm_aggregate_p95_eq_max (values : List ℚ)
    (h1 : values ≠ []) (h2 : values.length < 20) :
    PanosMonitor.aggregate values "p95" = Collectors.pyMax values := by
  have hm : Collectors.pyLower (if ("p95" : String) = "" then "mean" else "p95") =
      "p95" := by decide
  unfold PanosMonitor.aggregate
  rw [if_neg h1]
  simp only [hm]
  rw [if_neg (by decide : ¬ ("p95" : String) = "max")]
  rw [if_pos trivial]
  have hperm := List.perm_insertionSort (· ≤ ·) values
  have hn1 : 1 ≤ (List.insertionSort (· ≤ ·) values).length := by
    rw [hperm.length_eq]
    exact List.length_pos.mpr h1
  have hn2 : (List.insertionSort (· ≤ ·) values).length < 20 := by
    rw [hperm.length_eq]; exact h2
  have hceil : ⌈(95 / 100 : ℚ) * ((List.insertionSort (· ≤ ·) values).length : ℚ)⌉ =
      ((List.insertionSort (· ≤ ·) values).length : ℤ) := by
    rw [Int.ceil_eq_iff]
    have ha : (1 : ℚ) ≤ ((List.insertionSort (· ≤ ·) values).length : ℚ) := by
      exact_mod_cast hn1
    have hb : ((List.insertionSort (· ≤ ·) values).length : ℚ) ≤ 19 := by
      exact_mod_cast Nat.lt_succ_iff.mp hn2
    constructor
    · push_cast
      linarith
    · push_cast
      linarith
  rw [hceil]
  have hidx : max 0 (min (((List.insertionSort (· ≤ ·) values).length : ℤ) - 1)
      (((List.insertionSort (· ≤ ·) values).length : ℤ) - 1)) =
      ((List.insertionSort (· ≤ ·) values).length : ℤ) - 1 := by
    rw [min_self]
    exact max_eq_right (by omega)
  rw [hidx]
  have htn : ((((List.insertionSort (· ≤ ·) values).length : ℤ) - 1)).toNat =
      (List.insertionSort (· ≤ ·) values).length - 1 := by omega
  rw [htn]
  exact Collectors.sorted_getD_last_eq_pyMax values h1

/-- Witness for the amended **C2** at the spec's example `[1,2,3]`:
the nearest-rank p95 returns `3`, the maximum. -/
theorem pm_aggregate_p95_eq_max_witness :
    ([(1 : ℚ), 2, 3] ≠ []) ∧ [(1 : ℚ), 2, 3].length < 20 ∧
    PanosMonitor.aggregate [1, 2, 3] "p95" = 3 :=
  ⟨by decide, by decide,
   (pm_aggregate_p95_eq_max [1, 2, 3] (by decide) (by decide)).trans (by decide)⟩

/-- **C2** (counterexample): the interpolating p95 of `src/collectors.py`
(which `_aggregate` there uses for mode `"p95"`) returns `2.9`, not the
maximum `3`, on the spec's own example `[1,2,3]`. -/
theorem collectors_p95_short_list_counterexample :
    Collectors.aggregate [1, 2, 3] "p95" = 29 / 10 ∧
    Collectors.aggregate [1, 2, 3] "p95" ≠ 3 ∧
    Collectors.pyMax [1, 2, 3] = 3 := by
  refine ⟨by with_unfolding_all decide, by with_unfolding_all decide, by decide⟩

/-- **C3**: `calculate_percentile` computes linear interpolation between
the bracketing order statistics of the sorted input: with rank
`r = (n-1)*p`, the result is `sorted[⌊r⌋]*(1-frac) + sorted[⌊r⌋+1]*frac`
with `frac = r - ⌊r⌋` (stated where the bracketing pair exists: at least
two elements and `0 ≤ p < 1`); and it is not the nearest-rank percentile —
on `[1,2,3]` at 0.95 it differs from the nearest-rank result. -/
theorem calculate_percentile_linear_interpolation (values : List ℚ) (p : ℚ)
    (hlen : 2 ≤ values.length) (hp0 : 0 ≤ p) (hp1 : p < 1) :
    (Collectors.calculate_percentile values p =
      (List.insertionSort (· ≤ ·) values).getD
          (⌊((values.length : ℚ) - 1) * p⌋).toNat 0 *
          (1 - (((values.length : ℚ) - 1) * p -
            (⌊((values.length : ℚ) - 1) * p⌋ : ℤ))) +
        (List.insertionSort (· ≤ ·) values).getD
          ((⌊((values.length : ℚ) - 1) * p⌋).toNat + 1) 0 *
          (((values.length : ℚ) - 1) * p -
            (⌊((values.length : ℚ) - 1) * p⌋ : ℤ))) ∧
    Collectors.calculate_percentile [1, 2, 3] (95 / 100) ≠
      PanosMonitor.aggregate [1, 2, 3] "p95" := by
  refine ⟨?_, by with_unfolding_all decide⟩
  have hne : values ≠ [] := by
    intro h
    rw [h] at hlen
    simp at hlen
  have hlenS : (List.insertionSort (· ≤ ·) values).length = values.length :=
    (List.perm_insertionSort (· ≤ ·) values).length_eq
  have h2q : (2 : ℚ) ≤ (values.length : ℚ) := by exact_mod_cast hlen
  have hr0 : (0 : ℚ) ≤ ((values.length : ℚ) - 1) * p :=
    mul_nonneg (by linarith) hp0
  have hfloor_lt : ⌊((values.length : ℚ) - 1) * p⌋ < (values.length : ℤ) - 1 := by
    rw [Int.floor_lt]
    push_cast
    nlinarith
  have hfloor0 : 0 ≤ ⌊((values.length : ℚ) - 1) * p⌋ := Int.floor_nonneg.mpr hr0
  simp only [Collectors.calculate_percentile]
  rw [if_neg hne, hlenS]
  rw [if_neg (by omega : ¬ values.length = 1)]
  simp only [Collectors.pyInt]
  rw [if_pos hr0]
  rw [min_eq_left (by omega :
    ⌊((values.length : ℚ) - 1) * p⌋ + 1 ≤ (values.length : ℤ) - 1)]
  rw [if_neg (by omega : ¬ ⌊((values.length : ℚ) - 1) * p⌋ =
    ⌊((values.length : ℚ) - 1) * p⌋ + 1)]
  rw [(by omega : (⌊((values.length : ℚ) - 1) * p⌋ + 1).toNat =
    (⌊((values.length : ℚ) - 1) * p⌋).toNat + 1)]

/-- Witness for **C3** at `[1,2,3]` with `p = 0` (bracketing pair exists
and the formula evaluates concretely). -/
theorem calculate_percentile_linear_interpolation_witness :
    2 ≤ [(1 : ℚ), 2, 3].length ∧ ((0 : ℚ) ≤ 0 ∧ (0 : ℚ) < 1) ∧
    ((Collectors.calculate_percentile [1, 2, 3] 0 =
      (List.insertionSort (· ≤ ·) [(1 : ℚ), 2, 3]).getD
          (⌊(([(1 : ℚ), 2, 3].length : ℚ) - 1) * 0⌋).toNat 0 *
          (1 - ((([(1 : ℚ), 2, 3].length : ℚ) - 1) * 0 -
            (⌊(([(1 : ℚ), 2, 3].length : ℚ) - 1) * 0⌋ : ℤ))) +
        (List.insertionSort (· ≤ ·) [(1 : ℚ), 2, 3]).getD
          ((⌊(([(1 : ℚ), 2, 3].length : ℚ) - 1) * 0⌋).toNat + 1) 0 *
          ((([(1 : ℚ), 2, 3].length : ℚ) - 1) * 0 -
            (⌊(([(1 : ℚ), 2, 3].length : ℚ) - 1) * 0⌋ : ℤ))) ∧
      Collectors.calculate_percentile [1, 2, 3] (95 / 100) ≠
        PanosMonitor.aggregate [1, 2, 3] "p95") :=
  ⟨by decide, ⟨le_refl 0, by decide⟩,
   calculate_percentile_linear_interpolation [1, 2, 3] 0 (by decide)
     (le_refl 0) (by decide)⟩


namespace Collectors

/-- Python `dict` read (`d[k]` / `k in d`): first entry with the key (the
dicts built here have unique keys, being grown from `{}` by `update`). -/
def dict_get (d : List (String × MetricValue)) (k : String) : Option MetricValue :=
  match d with
  | [] => none
  | (k', v) :: rest => if k' = k then some v else dict_get rest k

/-- Reading back after a single-key `dict.update`: the updated key returns
the new value, every other key is untouched. -/
theorem dict_get_dict_update (d : List (String × MetricValue))
    (k k' : String) (v : MetricValue) :
    dict_get (dict_update d (k, v)) k' =
      if k = k' then some v else dict_get d k' := by
  induction d with
  | nil =>
    by_cases hk : k = k'
    · rw [if_pos hk]
      simp only [dict_update, dict_get, if_pos hk]
    · rw [if_neg hk]
      simp only [dict_update, dict_get, if_neg hk]
  | cons hd tl ih =>
    obtain ⟨k2, v2⟩ := hd
    simp only [dict_update]
    by_cases h2 : k2 = k
    · rw [if_pos h2]
      simp only [dict_get]
      by_cases hk : k = k'
      · rw [if_pos hk, if_pos hk]
      · rw [if_neg hk, if_neg hk, if_neg (fun hh => hk (h2 ▸ hh))]
    · rw [if_neg h2]
      simp only [dict_get]
      by_cases h2' : k2 = k'
      · rw [if_pos h2', if_pos h2',
          if_neg (fun hh : k = k' => h2 (hh ▸ h2'))]
      · rw [if_neg h2', if_neg h2']
        exact ih

/-- Keys not named by an update batch read the same after the batch. -/
theorem dict_get_dict_update_all_not_mem (fs : List (String × MetricValue))
    (d : List (String × MetricValue)) (k : String)
    (h : k ∉ fs.map Prod.fst) :
    dict_get (dict_update_all d fs) k = dict_get d k := by
  induction fs generalizing d with
  | nil => rfl
  | cons hd tl ih =>
    obtain ⟨k0, v0⟩ := hd
    simp only [List.map_cons, List.mem_cons, not_or] at h
    show dict_get (dict_update_all (dict_update d (k0, v0)) tl) k = _
    rw [ih (dict_update d (k0, v0)) h.2, dict_get_dict_update,
      if_neg (fun hh => h.1 hh.symm)]

/-- A key of an update batch with distinct keys reads its batch value
after the batch. -/
theorem dict_get_dict_update_all_mem (fs : List (String × MetricValue))
    (d : List (String × MetricValue)) (k : String) (v : MetricValue)
    (hnd : (fs.map Prod.fst).Nodup) (hmem : (k, v) ∈ fs) :
    dict_get (dict_update_all d fs) k = some v := by
  induction fs generalizing d with
  | nil => cases hmem
  | cons hd tl ih =>
    obtain ⟨k0, v0⟩ := hd
    simp only [List.map_cons, List.nodup_cons] at hnd
    show dict_get (dict_update_all (dict_update d (k0, v0)) tl) k = some v
    rcases List.mem_cons.mp hmem with heq | htl
    · injection heq with hk hv
      subst hk
      subst hv
      rw [dict_get_dict_update_all_not_mem tl _ k hnd.1,
        dict_get_dict_update, if_pos rfl]
    · exact ih (dict_update d (k0, v0)) hnd.2 htl

end Collectors

/-- **C9**: in a poll cycle with one failing metric group and one
succeeding one, `collect_metrics` still returns exactly one successful
`CollectionResult` (never raises, never suppresses the record): the
record carries every field of the succeeding group plus `timestamp` and
`firewall_name`, and no field of the failed group (any key outside the
succeeding group and the two bookkeeping keys is absent). Stated for both
assignments of which group fails. -/
theorem collect_metrics_partial_failure (name timestamp : String)
    (fs : List (String × ℚ)) (auth_ok : Bool)
    (hnd : (fs.map Prod.fst).Nodup) (hfs : fs ≠ [])
    (mgmt rm : Option (List (String × ℚ)))
    (hgroups : (mgmt = none ∧ rm = some fs) ∨ (mgmt = some fs ∧ rm = none))
    (k : String) (v : ℚ) :
    (Collectors.collect_metrics name true auth_ok mgmt rm timestamp).success = true ∧
    Collectors.dict_get
        (Collectors.collect_metrics name true auth_ok mgmt rm timestamp).metrics
        "timestamp" = some (Collectors.MetricValue.str timestamp) ∧
    Collectors.dict_get
        (Collectors.collect_metrics name true auth_ok mgmt rm timestamp).metrics
        "firewall_name" = some (Collectors.MetricValue.str name) ∧
    ((k, v) ∈ fs → k ≠ "timestamp" → k ≠ "firewall_name" →
      Collectors.dict_get
        (Collectors.collect_metrics name true auth_ok mgmt rm timestamp).metrics
        k = some (Collectors.MetricValue.num v)) ∧
    (k ∉ fs.map Prod.fst → k ≠ "timestamp" → k ≠ "firewall_name" →
      Collectors.dict_get
        (Collectors.collect_metrics name true auth_ok mgmt rm timestamp).metrics
        k = none) := by
  have hnd' : ((fs.map fun p => (p.1, Collectors.MetricValue.num p.2)).map
      Prod.fst).Nodup := by
    rw [List.map_map]
    exact hnd
  have hkeys : ∀ k' : String,
      k' ∈ (fs.map fun p => (p.1, Collectors.MetricValue.num p.2)).map Prod.fst ↔
      k' ∈ fs.map Prod.fst := by
    intro k'
    rw [List.map_map]
    rfl
  have hauth : ¬ (¬True ∧ ¬ auth_ok = true) := fun hc => hc.1 trivial
  rcases hgroups with ⟨hm, hr⟩ | ⟨hm, hr⟩ <;> subst hm <;> subst hr <;>
    [skip; rw [show Collectors.collect_metrics name true auth_ok (some fs) none
        timestamp = Collectors.collect_metrics name true auth_ok none (some fs)
        timestamp from by
      simp only [Collectors.collect_metrics, if_neg hauth, if_neg hfs]]] <;>
  · simp only [Collectors.collect_metrics, if_neg hauth]
    refine ⟨by trivial, ?_, ?_, ?_, ?_⟩
    · rw [Collectors.dict_get_dict_update,
        if_neg (by decide : ¬ ("firewall_name" : String) = "timestamp"),
        Collectors.dict_get_dict_update, if_pos rfl]
    · rw [Collectors.dict_get_dict_update, if_pos rfl]
    · intro hmem hk1 hk2
      rw [Collectors.dict_get_dict_update, if_neg (fun hh => hk2 hh.symm),
        Collectors.dict_get_dict_update, if_neg (fun hh => hk1 hh.symm)]
      exact Collectors.dict_get_dict_update_all_mem _ _ k
        (Collectors.MetricValue.num v) hnd'
        (List.mem_map.mpr ⟨(k, v), hmem, rfl⟩)
    · intro hnot hk1 hk2
      rw [Collectors.dict_get_dict_update, if_neg (fun hh => hk2 hh.symm),
        Collectors.dict_get_dict_update, if_neg (fun hh => hk1 hh.symm),
        Collectors.dict_get_dict_update_all_not_mem _ _ k
          (fun hh => hnot ((hkeys k).mp hh))]
      rfl

/-- Witness for **C9** at the spec's **E2E A** numbers: management CPU
group fails, the resource-monitor group returns `{cpu: 42.5}`; the single
emitted record is successful, carries `cpu`, `timestamp` and
`firewall_name`, and has no `rx_mbps` field. -/
theorem collect_metrics_partial_failure_witness :
    (Collectors.collect_metrics "fw1" true true none (some [("cpu", 85 / 2)])
      "T").success = true ∧
    Collectors.dict_get
      (Collectors.collect_metrics "fw1" true true none (some [("cpu", 85 / 2)])
        "T").metrics "timestamp" = some (Collectors.MetricValue.str "T") ∧
    Collectors.dict_get
      (Collectors.collect_metrics "fw1" true true none (some [("cpu", 85 / 2)])
        "T").metrics "firewall_name" = some (Collectors.MetricValue.str "fw1") ∧
    Collectors.dict_get
      (Collectors.collect_metrics "fw1" true true none (some [("cpu", 85 / 2)])
        "T").metrics "cpu" = some (Collectors.MetricValue.num (85 / 2)) ∧
    Collectors.dict_get
      (Collectors.collect_metrics "fw1" true true none (some [("cpu", 85 / 2)])
        "T").metrics "rx_mbps" = none :=
  have h1 := collect_metrics_partial_failure "fw1" "T" [("cpu", 85 / 2)] true
    (by decide) (List.cons_ne_nil _ _) none (some [("cpu", 85 / 2)])
    (Or.inl ⟨rfl, rfl⟩) "cpu" (85 / 2)
  have h2 := collect_metrics_partial_failure "fw1" "T" [("cpu", 85 / 2)] true
    (by decide) (List.cons_ne_nil _ _) none (some [("cpu", 85 / 2)])
    (Or.inl ⟨rfl, rfl⟩) "rx_mbps" 0
  ⟨h1.1, h1.2.1, h1.2.2.1,
   h1.2.2.2.1 (List.mem_singleton.mpr rfl) (by decide) (by decide),
   h2.2.2.2.2 (by decide) (by decide) (by decide)⟩
